import Mathlib

set_option maxHeartbeats 1000000

namespace AdSnap

/-- Dynamically typed JSON-like Python values exchanged with the generation
backend: strings, lists, and dicts with string keys. -/
inductive PyVal where
  | vStr (s : String)
  | vList (xs : List PyVal)
  | vDict (kvs : List (String × PyVal))
deriving Repr

/-- Association lookup for Python dict access (first matching key wins; Python
dicts have unique keys, so the assoc-list model agrees on all real inputs). -/
def lookupKey : List (String × PyVal) → String → Option PyVal
  | [], _ => none
  | (k, v) :: rest, key => if k = key then some v else lookupKey rest key

/-- Python dict membership test plus access (`"k" in d` / `d["k"]`): the value
when the receiver is a dict containing the key, none otherwise. -/
def dictGet : PyVal → String → Option PyVal
  | .vDict kvs, key => lookupKey kvs key
  | _, _ => none

/-- Python subscript `v[0]`: head of a list, first character of a string; the
error constructor models the IndexError / KeyError / TypeError raised on an
empty list, empty string, or dict. -/
def pyIndex0 : PyVal → Except Unit PyVal
  | .vList (x :: _) => .ok x
  | .vStr s =>
    match s.data with
    | [] => .error ()
    | c :: _ => .ok (.vStr (String.mk [c]))
  | _ => .error ()

/-- Loop over the sync-mode `result` list (src/app.py lines 610-618): the first
item that is a dict carrying `urls`, or a non-empty raw list, supplies the
displayed value; a matching dict whose `urls` entry cannot be indexed raises. -/
def extractFromResultList : List PyVal → Except Unit (Option PyVal)
  | [] => .ok none
  | item :: rest =>
    match item with
    | .vDict kvs =>
      match lookupKey kvs "urls" with
      | some v => Except.map some (pyIndex0 v)
      | none => extractFromResultList rest
    | .vList [] => extractFromResultList rest
    | .vList (x :: _) => .ok (some x)
    | _ => extractFromResultList rest

/-- Sync-mode result extraction (src/app.py lines 601-621): probes
`result_url`, then `result_urls`, then a nested `result` list, then `urls`;
returns the value assigned as the displayed image, `none` when no branch
matches, and an error when a taken branch raises while indexing. -/
def extractSyncResult (r : PyVal) : Except Unit (Option PyVal) :=
  match dictGet r "result_url" with
  | some v => .ok (some v)
  | none =>
    match dictGet r "result_urls" with
    | some v => Except.map some (pyIndex0 v)
    | none =>
      match dictGet r "result" with
      | some (.vList items) => extractFromResultList items
      | _ =>
        match dictGet r "urls" with
        | some v => Except.map some (pyIndex0 v)
        | none => .ok none

/-- The probe order exactly as the specification states it: `result_url`,
`result_urls`, `urls`, and only then the nested `result` list. Written from the
spec's words so that it can be compared with `extractSyncResult`, which is
translated from the code. -/
def specOrderExtract (r : PyVal) : Except Unit (Option PyVal) :=
  match dictGet r "result_url" with
  | some v => .ok (some v)
  | none =>
    match dictGet r "result_urls" with
    | some v => Except.map some (pyIndex0 v)
    | none =>
      match dictGet r "urls" with
      | some v => Except.map some (pyIndex0 v)
      | none =>
        match dictGet r "result" with
        | some (.vList items) => extractFromResultList items
        | _ => .ok none

/-- Whether an optional value is present and is a list. -/
def isSomeList : Option PyVal → Bool
  | some (.vList _) => true
  | _ => false

/-- C2 (amended): in synchronous mode the extraction probes `result_url`
first, then `result_urls`, then the nested `result` list, and only then
`urls`; the first structurally matching branch determines the current
displayed result. -/
theorem extractSyncResult_priority (r : PyVal) :
    (∀ v, dictGet r "result_url" = some v → extractSyncResult r = .ok (some v))
    ∧ (∀ v, dictGet r "result_url" = none → dictGet r "result_urls" = some v →
        extractSyncResult r = Except.map some (pyIndex0 v))
    ∧ (∀ items, dictGet r "result_url" = none → dictGet r "result_urls" = none →
        dictGet r "result" = some (.vList items) →
        extractSyncResult r = extractFromResultList items)
    ∧ (∀ v, dictGet r "result_url" = none → dictGet r "result_urls" = none →
        isSomeList (dictGet r "result") = false → dictGet r "urls" = some v →
        extractSyncResult r = Except.map some (pyIndex0 v)) := by
  refine ⟨?_, ?_, ?_, ?_⟩
  · intro v h1
    unfold extractSyncResult
    rw [h1]
  · intro v h1 h2
    unfold extractSyncResult
    rw [h1, h2]
  · intro items h1 h2 h3
    unfold extractSyncResult
    rw [h1, h2, h3]
  · intro v h1 h2 h3 h4
    unfold extractSyncResult
    rw [h1, h2]
    rcases hres : dictGet r "result" with _ | val
    · rw [h4]
    · cases val with
      | vStr s => rw [h4]
      | vList xs => rw [hres] at h3; simp [isSomeList] at h3
      | vDict kvs => rw [h4]

/-- Witness for C2's amended theorem at a concrete response carrying only a
`result_url` key. -/
theorem extractSyncResult_priority_witness :
    extractSyncResult (.vDict [("result_url", .vStr "U")]) = .ok (some (.vStr "U")) :=
  (extractSyncResult_priority (.vDict [("result_url", .vStr "U")])).1 (.vStr "U") rfl

/-- C2 counterexample: a response holding both `urls` and a nested `result`
list (and neither `result_url` nor `result_urls`) makes the code take the
nested `result` list, while the spec's stated probe order would take `urls`
first; the two extracted values differ. -/
theorem extractSyncResult_order_counterexample :
    extractSyncResult
        (.vDict [("urls", .vList [.vStr "A"]), ("result", .vList [.vList [.vStr "B"]])])
      = .ok (some (.vStr "B"))
    ∧ specOrderExtract
        (.vDict [("urls", .vList [.vStr "A"]), ("result", .vList [.vList [.vStr "B"]])])
      = .ok (some (.vStr "A"))
    ∧ ((Except.ok (some (PyVal.vStr "B")) : Except Unit (Option PyVal))
        ≠ .ok (some (.vStr "A"))) := by
  refine ⟨rfl, rfl, ?_⟩
  intro h
  simp only [Except.ok.injEq, Option.some.injEq, PyVal.vStr.injEq] at h
  exact absurd h (by decide)

/-- Python iteration as used by `list.extend(x)`: the elements of a list, the
characters of a string, the keys of a dict (every PyVal shape is iterable). -/
def pyIter : PyVal → List PyVal
  | .vList xs => xs
  | .vStr s => s.data.map (fun c => .vStr (String.mk [c]))
  | .vDict kvs => kvs.map (fun kv => .vStr kv.1)

/-- URLs one item of the async `result` loop contributes (src/app.py lines
629-633): the dict's `urls` entry when present, a raw list's elements, nothing
otherwise. -/
def itemUrls : PyVal → List PyVal
  | .vDict kvs =>
    match lookupKey kvs "urls" with
    | some v => pyIter v
    | none => []
  | .vList xs => xs
  | _ => []

/-- The full flattening of a `result` list's URL contributions, in order. -/
def flattenItems : List PyVal → List PyVal
  | [] => []
  | item :: rest => itemUrls item ++ flattenItems rest

/-- The accumulation loop of the async branch (src/app.py lines 628-636): each
item's URLs are appended, and the loop breaks as soon as at least `n` URLs have
been gathered. -/
def collectAsync (n : Nat) : List PyVal → List PyVal → List PyVal
  | [], acc => acc
  | item :: rest, acc =>
    let acc2 := acc ++ itemUrls item
    if n ≤ acc2.length then acc2 else collectAsync n rest acc2

/-- All URLs an async response yields before any truncation: the `urls` entry
when present, else the flattened contributions of a `result` list. -/
def responseUrls (r : PyVal) : List PyVal :=
  match dictGet r "urls" with
  | some v => pyIter v
  | none =>
    match dictGet r "result" with
    | some (.vList items) => flattenItems items
    | _ => []

/-- Async-mode URL extraction (src/app.py lines 622-640): the `urls` entry is
sliced to `num_results`; otherwise the `result` list is accumulated with the
early break and then trimmed to `num_results`. -/
def extractAsyncUrls (r : PyVal) (n : Nat) : List PyVal :=
  match dictGet r "urls" with
  | some v => (pyIter v).take n
  | none =>
    match dictGet r "result" with
    | some (.vList items) => (collectAsync n items []).take n
    | _ => []

/-- Pending-set update after an async submission (src/app.py lines 641-642):
the extracted URLs replace the pending set only when they are non-empty. -/
def asyncSubmitPending (prevPending : List PyVal) (r : PyVal) (n : Nat) : List PyVal :=
  let urls := extractAsyncUrls r n
  if urls.isEmpty then prevPending else urls

/-- The break in the accumulation loop leaves a prefix of the full flattening,
and a proper prefix only when at least `n` URLs were already gathered. -/
theorem collectAsync_glue (n : Nat) (items acc : List PyVal) :
    ∃ t, collectAsync n items acc ++ t = acc ++ flattenItems items
      ∧ (t = [] ∨ n ≤ (collectAsync n items acc).length) := by
  induction items generalizing acc with
  | nil => exact ⟨[], by simp [collectAsync, flattenItems], Or.inl rfl⟩
  | cons item rest ih =>
    simp only [collectAsync, flattenItems]
    by_cases h : n ≤ (acc ++ itemUrls item).length
    · rw [if_pos h]
      exact ⟨flattenItems rest, by simp, Or.inr h⟩
    · rw [if_neg h]
      obtain ⟨t, ht, hd⟩ := ih (acc ++ itemUrls item)
      refine ⟨t, ?_, hd⟩
      rw [ht]
      simp

/-- Both async extraction paths agree with truncating the full URL flattening. -/
theorem extractAsyncUrls_take (r : PyVal) (n : Nat) :
    extractAsyncUrls r n = (responseUrls r).take n := by
  unfold extractAsyncUrls responseUrls
  rcases h : dictGet r "urls" with _ | v
  · rcases h2 : dictGet r "result" with _ | v2
    · simp
    · cases v2 with
      | vStr s => simp
      | vList items =>
        simp only []
        obtain ⟨t, ht, hd⟩ := collectAsync_glue n items []
        rcases hd with hnil | hlen
        · subst hnil
          simp only [List.append_nil, List.nil_append] at ht
          rw [ht]
        · have hstep : (collectAsync n items [] ++ t).take n
              = (collectAsync n items []).take n := by
            rw [List.take_append_of_le_length hlen]
          rw [← hstep, ht]
          simp
      | vDict kvs => simp
  · rfl

/-- C3 counterexample: an async response yielding zero URLs (here
`{"urls": []}`) leaves a previously non-empty pending set unchanged instead of
making the pending set equal to the (empty) yielded set. -/
theorem asyncSubmitPending_empty_counterexample :
    responseUrls (.vDict [("urls", .vList [])]) = []
    ∧ asyncSubmitPending [.vStr "p"] (.vDict [("urls", .vList [])]) 4 = [.vStr "p"]
    ∧ ([PyVal.vStr "p"] : List PyVal) ≠ [] := by
  refine ⟨rfl, rfl, ?_⟩
  intro h
  exact List.noConfusion h

/-- C3 (amended): with requested count `n > 0`, a response yielding at least
`n` URLs makes the pending set exactly the first `n` in their original order; a
response yielding at least one but fewer than `n` makes it all of them (no
padding); a response yielding none leaves the pending set unchanged. -/
theorem asyncSubmitPending_spec (prev : List PyVal) (r : PyVal) (n : Nat) :
    (0 < n → n ≤ (responseUrls r).length →
      asyncSubmitPending prev r n = (responseUrls r).take n)
    ∧ ((responseUrls r).length < n → responseUrls r ≠ [] →
      asyncSubmitPending prev r n = responseUrls r)
    ∧ (responseUrls r = [] → asyncSubmitPending prev r n = prev) := by
  unfold asyncSubmitPending
  rw [extractAsyncUrls_take]
  refine ⟨?_, ?_, ?_⟩
  · intro hn hlen
    have hne : ((responseUrls r).take n).isEmpty = false := by
      cases htk : (responseUrls r).take n with
      | nil =>
        have hlen0 := congrArg List.length htk
        rw [List.length_take] at hlen0
        simp only [List.length_nil] at hlen0
        omega
      | cons a l => rfl
    simp [hne]
  · intro hlen hne
    have htake : (responseUrls r).take n = responseUrls r :=
      List.take_of_length_le (le_of_lt hlen)
    rw [htake]
    have : (responseUrls r).isEmpty = false := by
      cases hu : responseUrls r with
      | nil => exact absurd hu hne
      | cons a l => rfl
    simp [this]
  · intro hu
    rw [hu]
    simp

/-- Witness for C3's amended theorem: the spec's end-to-end scenario, a
response of five URLs with `num_results = 4`. -/
theorem asyncSubmitPending_spec_witness :
    asyncSubmitPending []
        (.vDict [("urls", .vList [.vStr "u1", .vStr "u2", .vStr "u3", .vStr "u4", .vStr "u5"])]) 4
      = (responseUrls
          (.vDict [("urls", .vList [.vStr "u1", .vStr "u2", .vStr "u3", .vStr "u4", .vStr "u5"])])).take 4 :=
  (asyncSubmitPending_spec []
    (.vDict [("urls", .vList [.vStr "u1", .vStr "u2", .vStr "u3", .vStr "u4", .vStr "u5"])]) 4).1
    (by decide) (by decide)

/-- Outcome of a HEAD probe as the poller observes it: an HTTP response with
its status code, or a raised network exception. The model carries no content
length because the code never reads one. -/
inductive HeadOutcome where
  | status (code : Nat)
  | exn
deriving DecidableEq, Repr

/-- Readiness test (src/app.py lines 165-172): a 200 response counts as ready;
any other status, or an exception, keeps the URL pending. -/
def isReady : HeadOutcome → Bool
  | .status code => code == 200
  | .exn => false

/-- The session state the poller touches: the pending URL list, the displayed
image, and the gallery of generated images. -/
structure PollState where
  pendingUrls : List String
  editedImage : Option String
  generatedImages : List String
deriving DecidableEq, Repr

/-- One recheck pass (src/app.py lines 157-184, check_generated_images): the
pending URLs are split into ready (HEAD returned 200) and still pending
(anything else, exceptions included); the still-pending ones stay in the
pending set, the first ready URL is displayed, all ready URLs are stored when
more than one, and the pass reports whether anything became ready. -/
def checkGeneratedImages (head : String → HeadOutcome) (s : PollState) : PollState × Bool :=
  if s.pendingUrls.isEmpty then (s, false)
  else
    match s.pendingUrls.filter (fun u => isReady (head u)) with
    | [] =>
      ({ s with pendingUrls := s.pendingUrls.filter (fun u => !(isReady (head u))) }, false)
    | r0 :: rrest =>
      ({ pendingUrls := s.pendingUrls.filter (fun u => !(isReady (head u)))
         editedImage := some r0
         generatedImages :=
           if rrest.isEmpty then s.generatedImages
           else s.pendingUrls.filter (fun u => isReady (head u)) }, true)

/-- The bounded automatic loop (src/app.py lines 186-196, auto_check_images):
while attempts remain and URLs are pending, sleep two seconds and run a check
pass, stopping on the first pass that finds a ready image. The attempt index
is threaded to the HEAD oracle and the number of sleeps is returned. -/
def autoCheckAux (head : Nat → String → HeadOutcome) (attempt : Nat) :
    Nat → PollState → PollState × Bool × Nat
  | 0, s => (s, false, 0)
  | remaining + 1, s =>
    if s.pendingUrls.isEmpty then (s, false, 0)
    else if (checkGeneratedImages (head attempt) s).2 then
      ((checkGeneratedImages (head attempt) s).1, true, 1)
    else
      ((autoCheckAux head (attempt + 1) remaining (checkGeneratedImages (head attempt) s).1).1,
       (autoCheckAux head (attempt + 1) remaining (checkGeneratedImages (head attempt) s).1).2.1,
       (autoCheckAux head (attempt + 1) remaining (checkGeneratedImages (head attempt) s).1).2.2 + 1)

/-- auto_check_images entry point: max_attempts is 3, starting at attempt 0. -/
def autoCheckImages (head : Nat → String → HeadOutcome) (s : PollState) : PollState × Bool × Nat :=
  autoCheckAux head 0 3 s

/-- Branch equation: the loop with no pending URLs exits without sleeping. -/
theorem autoCheckAux_succ_empty (head : Nat → String → HeadOutcome) (attempt remaining : Nat)
    (s : PollState) (hemp : s.pendingUrls.isEmpty = true) :
    autoCheckAux head attempt (remaining + 1) s = (s, false, 0) := by
  simp only [autoCheckAux]
  rw [hemp]
  simp

/-- Branch equation: a successful check pass ends the loop after one sleep. -/
theorem autoCheckAux_succ_found (head : Nat → String → HeadOutcome) (attempt remaining : Nat)
    (s : PollState) (hemp : s.pendingUrls.isEmpty = false)
    (hfound : (checkGeneratedImages (head attempt) s).2 = true) :
    autoCheckAux head attempt (remaining + 1) s
      = ((checkGeneratedImages (head attempt) s).1, true, 1) := by
  simp only [autoCheckAux]
  rw [hemp, hfound]
  simp

/-- Branch equation: a failed check pass recurses on the updated state and
adds this round's sleep. -/
theorem autoCheckAux_succ_notfound (head : Nat → String → HeadOutcome) (attempt remaining : Nat)
    (s : PollState) (hemp : s.pendingUrls.isEmpty = false)
    (hfound : (checkGeneratedImages (head attempt) s).2 = false) :
    autoCheckAux head attempt (remaining + 1) s
      = ((autoCheckAux head (attempt + 1) remaining (checkGeneratedImages (head attempt) s).1).1,
         (autoCheckAux head (attempt + 1) remaining (checkGeneratedImages (head attempt) s).1).2.1,
         (autoCheckAux head (attempt + 1) remaining
           (checkGeneratedImages (head attempt) s).1).2.2 + 1) := by
  simp only [autoCheckAux]
  rw [hemp, hfound]
  simp

/-- Helper: after a pass, the pending set is exactly the not-ready filter. -/
theorem checkGeneratedImages_pendingUrls (head : String → HeadOutcome) (s : PollState) :
    (checkGeneratedImages head s).1.pendingUrls
      = s.pendingUrls.filter (fun u => !(isReady (head u))) := by
  unfold checkGeneratedImages
  by_cases hemp : s.pendingUrls.isEmpty
  · rw [if_pos hemp]
    have hnil : s.pendingUrls = [] := List.isEmpty_iff.mp hemp
    rw [hnil]
    rfl
  · rw [if_neg hemp]
    rcases hr : s.pendingUrls.filter (fun u => isReady (head u)) with _ | ⟨r0, rrest⟩ <;>
      simp [hr]

/-- Helper: a pending URL whose probe is not a 200 stays pending. -/
theorem mem_pending_of_not_ready (head : String → HeadOutcome) (s : PollState) (u : String)
    (hm : u ∈ s.pendingUrls) (hr : isReady (head u) = false) :
    u ∈ (checkGeneratedImages head s).1.pendingUrls := by
  rw [checkGeneratedImages_pendingUrls]
  exact List.mem_filter.mpr ⟨hm, by simp [hr]⟩

/-- C1: a recheck pass classifies a pending URL ready exactly when its HEAD
probe returned status 200 (the probe model carries no content length); the
not-ready URLs are exactly what remains pending, ready and still-pending
together are a permutation of the input, and the pass reports success exactly
when some pending URL returned 200. -/
theorem checkGeneratedImages_partition (head : String → HeadOutcome) (s : PollState) :
    ((checkGeneratedImages head s).1.pendingUrls
        = s.pendingUrls.filter (fun u => !(isReady (head u))))
    ∧ (∀ u, u ∈ s.pendingUrls.filter (fun u => isReady (head u))
        ↔ u ∈ s.pendingUrls ∧ head u = .status 200)
    ∧ (s.pendingUrls.filter (fun u => isReady (head u))
        ++ (checkGeneratedImages head s).1.pendingUrls).Perm s.pendingUrls
    ∧ ((checkGeneratedImages head s).2 = true
        ↔ ∃ u, u ∈ s.pendingUrls ∧ head u = .status 200) := by
  have hready : ∀ o : HeadOutcome, isReady o = true ↔ o = .status 200 := by
    intro o
    cases o with
    | status code =>
      simp only [isReady, beq_iff_eq]
      exact ⟨fun h => h ▸ rfl, fun h => by cases h; rfl⟩
    | exn => simp [isReady]
  refine ⟨checkGeneratedImages_pendingUrls head s, ?_, ?_, ?_⟩
  · intro u
    rw [List.mem_filter]
    exact and_congr_right (fun _ => hready (head u))
  · rw [checkGeneratedImages_pendingUrls]
    exact List.filter_append_perm _ _
  · constructor
    · intro hfound
      unfold checkGeneratedImages at hfound
      by_cases hemp : s.pendingUrls.isEmpty
      · rw [if_pos hemp] at hfound
        exact absurd hfound (by simp)
      · rw [if_neg hemp] at hfound
        rcases hr : s.pendingUrls.filter (fun u => isReady (head u)) with _ | ⟨r0, rrest⟩
        · rw [hr] at hfound
          exact absurd hfound (by simp)
        · have : r0 ∈ s.pendingUrls.filter (fun u => isReady (head u)) := by
            rw [hr]; exact List.mem_cons_self r0 rrest
          have hm := List.mem_filter.mp this
          exact ⟨r0, hm.1, (hready (head r0)).mp hm.2⟩
    · rintro ⟨u, hm, h200⟩
      have humem : u ∈ s.pendingUrls.filter (fun x => isReady (head x)) :=
        List.mem_filter.mpr ⟨hm, (hready (head u)).mpr h200⟩
      have hemp : s.pendingUrls.isEmpty = false := by
        cases hp : s.pendingUrls with
        | nil => rw [hp] at hm; exact absurd hm (List.not_mem_nil u)
        | cons a l => rfl
      unfold checkGeneratedImages
      rw [hemp]
      simp only [Bool.false_eq_true, if_false]
      rcases hr : s.pendingUrls.filter (fun x => isReady (head x)) with _ | ⟨r0, rrest⟩
      · rw [hr] at humem
        exact absurd humem (List.not_mem_nil u)
      · rfl

/-- Witness for C1 at a concrete single-URL pass answered with 200. -/
theorem checkGeneratedImages_partition_witness :
    (checkGeneratedImages (fun _ => .status 200) ⟨["x"], none, []⟩).2 = true :=
  (checkGeneratedImages_partition (fun _ => .status 200) ⟨["x"], none, []⟩).2.2.2.mpr
    ⟨"x", List.mem_cons_self "x" [], rfl⟩

/-- C4: a pending URL whose HEAD probe raises a network exception stays in the
pending set after the pass (the pass itself completes for every oracle), and a
URL that raises on attempt 0 but returns 200 on attempt 1 is reported ready by
the automatic loop after its second attempt (two sleeps). -/
theorem poller_transient_error (head : String → HeadOutcome) (s : PollState) (u : String) :
    (u ∈ s.pendingUrls → head u = .exn →
      u ∈ (checkGeneratedImages head s).1.pendingUrls)
    ∧ autoCheckImages (fun a _ => if a = 0 then .exn else .status 200)
        ⟨["u1"], none, []⟩ = (⟨[], some "u1", []⟩, true, 2) := by
  constructor
  · intro hm hexn
    exact mem_pending_of_not_ready head s u hm (by rw [hexn]; rfl)
  · rfl

/-- Witness for C4 at a concrete one-URL state whose probe raises. -/
theorem poller_transient_error_witness :
    "u1" ∈ (checkGeneratedImages (fun _ => .exn) ⟨["u1"], none, []⟩).1.pendingUrls :=
  (poller_transient_error (fun _ => .exn) ⟨["u1"], none, []⟩ "u1").1
    (List.mem_cons_self "u1" []) rfl

/-- C5: the automatic polling loop is a total function whose sleep count is
bounded by the remaining-attempt cap (3 at the top level, one fixed 2-second
sleep per attempt); it exits at once when the pending set is empty, and the
first check pass that reports a ready image ends the loop after exactly one
sleep of that round. -/
theorem autoCheckImages_bounded (head : Nat → String → HeadOutcome) (s : PollState) :
    (autoCheckImages head s).2.2 ≤ 3
    ∧ (∀ attempt remaining, (autoCheckAux head attempt remaining s).2.2 ≤ remaining)
    ∧ (∀ attempt remaining, s.pendingUrls = [] →
        autoCheckAux head attempt remaining s = (s, false, 0))
    ∧ (∀ attempt remaining s2, s.pendingUrls ≠ [] →
        checkGeneratedImages (head attempt) s = (s2, true) →
        autoCheckAux head attempt (remaining + 1) s = (s2, true, 1)) := by
  have hbound : ∀ remaining attempt s1,
      (autoCheckAux head attempt remaining s1).2.2 ≤ remaining := by
    intro remaining
    induction remaining with
    | zero => intro attempt s1; exact Nat.le_refl 0
    | succ rem ih =>
      intro attempt s1
      rcases hemp : s1.pendingUrls.isEmpty with _ | _
      · rcases hfound : (checkGeneratedImages (head attempt) s1).2 with _ | _
        · rw [autoCheckAux_succ_notfound head attempt rem s1 hemp hfound]
          exact Nat.succ_le_succ (ih (attempt + 1) _)
        · rw [autoCheckAux_succ_found head attempt rem s1 hemp hfound]
          exact Nat.succ_le_succ (Nat.zero_le rem)
      · rw [autoCheckAux_succ_empty head attempt rem s1 hemp]
        exact Nat.zero_le _
  refine ⟨hbound 3 0 s, fun attempt remaining => hbound remaining attempt s, ?_, ?_⟩
  · intro attempt remaining hnil
    cases remaining with
    | zero => rfl
    | succ rem => exact autoCheckAux_succ_empty head attempt rem s (by rw [hnil]; rfl)
  · intro attempt remaining s2 hne hc
    have hemp : s.pendingUrls.isEmpty = false := by
      cases hp : s.pendingUrls with
      | nil => exact absurd hp hne
      | cons a l => rfl
    have := autoCheckAux_succ_found head attempt remaining s hemp (by rw [hc])
    rw [hc] at this
    exact this

/-- Witness for C5: a single pending URL answered 200 on the first attempt
ends the loop after one sleep. -/
theorem autoCheckImages_bounded_witness :
    autoCheckAux (fun _ _ => .status 200) 0 3 ⟨["w"], none, []⟩
      = (⟨[], some "w", []⟩, true, 1) :=
  (autoCheckImages_bounded (fun _ _ => .status 200) ⟨["w"], none, []⟩).2.2.2 0 2
    ⟨[], some "w", []⟩ (by decide) rfl

/-- C6 counterexample: when two pending URLs both return 200 in one pass, both
leave the pending set but only the first is assigned as the displayed result;
the second ready URL is removed without ever being the current result. -/
theorem poller_display_counterexample :
    checkGeneratedImages (fun _ => .status 200) ⟨["a", "b"], none, []⟩
      = (⟨[], some "a", ["a", "b"]⟩, true)
    ∧ ("b" ∉ (checkGeneratedImages (fun _ => .status 200)
        ⟨["a", "b"], none, []⟩).1.pendingUrls)
    ∧ (checkGeneratedImages (fun _ => .status 200) ⟨["a", "b"], none, []⟩).1.editedImage
        ≠ some "b" := by
  refine ⟨rfl, by decide, by decide⟩

/-- C6 (amended): a URL reaching ready (HEAD 200) is removed from the pending
set, and the first ready URL of the pass becomes the displayed result (so when
several become ready at once only the first is displayed); polling alone never
removes a URL for any other reason, and a URL that never returns 200 survives
any run of the automatic loop — there is no failing terminal state. -/
theorem poller_state_machine (head : String → HeadOutcome) (s : PollState) (u : String) :
    (u ∈ s.pendingUrls → head u = .status 200 →
      u ∉ (checkGeneratedImages head s).1.pendingUrls)
    ∧ (u ∈ s.pendingUrls → head u ≠ .status 200 →
      u ∈ (checkGeneratedImages head s).1.pendingUrls)
    ∧ (s.pendingUrls.filter (fun x => isReady (head x)) ≠ [] →
      (checkGeneratedImages head s).1.editedImage
        = (s.pendingUrls.filter (fun x => isReady (head x))).head?)
    ∧ (∀ aHead : Nat → String → HeadOutcome, ∀ attempt remaining,
        u ∈ s.pendingUrls → (∀ i, aHead i u ≠ .status 200) →
        u ∈ (autoCheckAux aHead attempt remaining s).1.pendingUrls) := by
  have hnotready : ∀ o : HeadOutcome, o ≠ .status 200 → isReady o = false := by
    intro o h
    cases o with
    | status code =>
      simp only [isReady, beq_eq_false_iff_ne]
      intro hc
      exact h (by rw [hc])
    | exn => rfl
  refine ⟨?_, ?_, ?_, ?_⟩
  · intro hm h200
    rw [checkGeneratedImages_pendingUrls]
    intro hmem
    have := (List.mem_filter.mp hmem).2
    rw [h200] at this
    simp [isReady] at this
  · intro hm hne
    exact mem_pending_of_not_ready head s u hm (hnotready (head u) hne)
  · intro hne
    unfold checkGeneratedImages
    have hemp : s.pendingUrls.isEmpty = false := by
      cases hp : s.pendingUrls with
      | nil =>
        rw [hp] at hne
        simp at hne
      | cons a l => rfl
    rw [hemp]
    simp only [Bool.false_eq_true, if_false]
    rcases hr : s.pendingUrls.filter (fun x => isReady (head x)) with _ | ⟨r0, rrest⟩
    · exact absurd hr hne
    · rfl
  · intro aHead attempt remaining
    induction remaining generalizing attempt s with
    | zero => intro hm _; exact hm
    | succ rem ih =>
      intro hm hnever
      have hstay : u ∈ (checkGeneratedImages (aHead attempt) s).1.pendingUrls :=
        mem_pending_of_not_ready (aHead attempt) s u hm
          (hnotready (aHead attempt u) (hnever attempt))
      rcases hemp : s.pendingUrls.isEmpty with _ | _
      · rcases hfound : (checkGeneratedImages (aHead attempt) s).2 with _ | _
        · rw [autoCheckAux_succ_notfound aHead attempt rem s hemp hfound]
          exact ih _ (attempt + 1) hstay hnever
        · rw [autoCheckAux_succ_found aHead attempt rem s hemp hfound]
          exact hstay
      · rw [autoCheckAux_succ_empty aHead attempt rem s hemp]
        exact hm

/-- Witness for C6's amended theorem at a concrete two-URL ready pass. -/
theorem poller_state_machine_witness :
    "a" ∉ (checkGeneratedImages (fun _ => .status 200) ⟨["a", "b"], none, []⟩).1.pendingUrls :=
  (poller_state_machine (fun _ => .status 200) ⟨["a", "b"], none, []⟩ "a").1
    (List.mem_cons_self "a" ["b"]) rfl

/-- Python truthiness of an optional string: a missing value and the empty
string are falsy. -/
def truthyStr : Option String → Bool
  | some s => !(s == "")
  | none => false

/-- Python `a or b` on optional strings: the left operand when truthy,
otherwise the right operand. -/
def pyOrStr (a b : Option String) : Option String :=
  if truthyStr a then a else b

/-- fal.ai key lookup at generation / status / result time (src/app.py lines
1179, 1367, 1379): `os.getenv("Fal.ai_LTX_API_KEY") or
st.session_state.get("fal_api_key")`. -/
def falApiKeyUsed (envKey sessionKey : Option String) : Option String :=
  pyOrStr envKey sessionKey

/-- Google key lookup at generation time (src/app.py line 1305):
`os.getenv("GOOGLE_API_KEY") or st.session_state.get("google_api_key")`. -/
def googleApiKeyUsed (envKey sessionKey : Option String) : Option String :=
  pyOrStr envKey sessionKey

/-- BRIA key as the image actions read it: the session value is seeded from
the environment (src/app.py lines 104-105) and overwritten by a non-empty
sidebar input (lines 206-212); the actions then use the session value. -/
def briaKeyUsed (envKey : Option String) (sidebarInput : String) : Option String :=
  if sidebarInput == "" then envKey else some sidebarInput

/-- C7 counterexample: at the fal.ai lookup the environment key is used even
though a session key is present, contradicting session-input precedence. -/
theorem falApiKey_env_counterexample :
    falApiKeyUsed (some "ENVKEY") (some "SESSIONKEY") = some "ENVKEY"
    ∧ (some "ENVKEY" : Option String) ≠ some "SESSIONKEY" :=
  ⟨rfl, by decide⟩

/-- C7 (amended): for the primary (BRIA) backend a non-empty sidebar-entered
session key wins over the environment key, but the operation-time lookups for
the fal.ai and Google video backends prefer the environment key; the session
key is used there only when the environment value is unset or empty. -/
theorem credential_precedence (envKey sessionKey : Option String) (e input : String) :
    (input ≠ "" → briaKeyUsed envKey input = some input)
    ∧ (e ≠ "" → falApiKeyUsed (some e) sessionKey = some e)
    ∧ (falApiKeyUsed none sessionKey = sessionKey)
    ∧ (e ≠ "" → googleApiKeyUsed (some e) sessionKey = some e)
    ∧ (googleApiKeyUsed none sessionKey = sessionKey) := by
  refine ⟨?_, ?_, rfl, ?_, rfl⟩
  · intro h
    simp [briaKeyUsed, h]
  · intro h
    simp [falApiKeyUsed, pyOrStr, truthyStr, h]
  · intro h
    simp [googleApiKeyUsed, pyOrStr, truthyStr, h]

/-- Witness for C7's amended theorem: a sidebar key overrides the environment
key for the primary backend. -/
theorem credential_precedence_witness :
    briaKeyUsed (some "E") "K" = some "K" :=
  (credential_precedence (some "E") (some "S") "E" "K").1 (by decide)

/-- Network operations the video generation service can perform. -/
inductive VideoEffect where
  | subscribeCall
  | submitCall
deriving DecidableEq, Repr

/-- The network part of generate_video_from_image, after the credential gate:
the sync path subscribes and returns the raw result, the async path submits
and wraps the request id; a backend failure is re-raised with the
"Video generation failed" text (src/services/video_generation.py
lines 63-104). -/
def runVideoCall (sync : Bool) (backend : Bool → Except String PyVal) :
    Except String PyVal × List VideoEffect :=
  if sync then
    match backend true with
    | .ok r => (.ok r, [.subscribeCall])
    | .error e => (.error ("Video generation failed: " ++ e), [.subscribeCall])
  else
    match backend false with
    | .ok rid =>
      (.ok (.vDict [("request_id", rid),
        ("status", .vStr "submitted"),
        ("message", .vStr "Video generation started. Use request_id to check status.")]),
       [.submitCall])
    | .error e => (.error ("Video generation failed: " ++ e), [.submitCall])

/-- generate_video_from_image (src/services/video_generation.py lines 39-104):
the credential gate runs first — a truthy api_key argument is exported to the
environment, otherwise a truthy FAL_KEY environment value is required,
otherwise a ValueError is raised before any network call. -/
def generate_video_from_image (apiKey envFalKey : Option String) (sync : Bool)
    (backend : Bool → Except String PyVal) :
    Except String PyVal × List VideoEffect :=
  if truthyStr apiKey then
    runVideoCall sync backend
  else if truthyStr envFalKey then
    runVideoCall sync backend
  else
    (.error "FAL_KEY environment variable or api_key parameter must be set", [])

/-- C8: with no truthy api_key argument and no truthy FAL_KEY environment
value, generate_video_from_image raises the credential error and performs no
network call at all. -/
theorem generate_video_no_credential (apiKey envFalKey : Option String) (sync : Bool)
    (backend : Bool → Except String PyVal)
    (ha : truthyStr apiKey = false) (he : truthyStr envFalKey = false) :
    generate_video_from_image apiKey envFalKey sync backend
      = (.error "FAL_KEY environment variable or api_key parameter must be set", []) := by
  simp [generate_video_from_image, ha, he]

/-- Witness for C8 with both credential sources absent. -/
theorem generate_video_no_credential_witness :
    generate_video_from_image none none true (fun _ => .ok (.vStr "r"))
      = (.error "FAL_KEY environment variable or api_key parameter must be set", []) :=
  generate_video_no_credential none none true (fun _ => .ok (.vStr "r")) rfl rfl

/-- Whether a character list starts with the given needle. -/
def startsWithChars : List Char → List Char → Bool
  | [], _ => true
  | _ :: _, [] => false
  | a :: as, b :: bs => a == b && startsWithChars as bs

/-- Substring search on character lists. -/
def containsSub (needle : List Char) : List Char → Bool
  | [] => startsWithChars needle []
  | c :: rest => startsWithChars needle (c :: rest) || containsSub needle rest

/-- Python's `needle in hay` substring test on strings. -/
def strContains (hay needle : String) : Bool :=
  containsSub needle.data hay.data

/-- User-visible messages the action-boundary error handler emits. -/
inductive UiEvent where
  | errorMsg (text : String)
  | warningMsg (text : String)
deriving DecidableEq, Repr

/-- Modelled from the spec: the image-service modules (packshot, shadow,
lifestyle shot, generative fill, hd image, erase) imported by src/app.py are
not present under src/. Per spec sections 4.1 and 7 they fail with RemoteError
on a non-2xx status, 422 signalling content moderation; the exception text is
modelled as carrying the HTTP status code. -/
def remoteErrorMessage (status : Nat) : String :=
  "API request failed with status " ++ toString status

/-- The action-boundary handler (src/app.py lines 443-446, 499-502, 663-666):
it always surfaces the failure text as an error message and adds the
moderation warning exactly when the text contains "422". -/
def handleActionError (msg : String) : List UiEvent :=
  [.errorMsg ("Error: " ++ msg)] ++
    (if strContains msg "422"
     then [.warningMsg "Content moderation failed. Please ensure the content is appropriate."]
     else [])

/-- C9: for every failing HTTP status in the 4xx/5xx range that the remote
can raise, the user sees the moderation warning exactly when the status is
422, and always sees the generic failure message. -/
theorem moderation_warning_iff_422 : ∀ status : Nat, status < 600 → 400 ≤ status →
    ((UiEvent.warningMsg "Content moderation failed. Please ensure the content is appropriate.")
        ∈ handleActionError (remoteErrorMessage status) ↔ status = 422)
    ∧ (UiEvent.errorMsg ("Error: " ++ remoteErrorMessage status)
        ∈ handleActionError (remoteErrorMessage status)) := by
  set_option maxRecDepth 100000 in decide

/-- Witness for C9 at status 422. -/
theorem moderation_warning_iff_422_witness :
    (UiEvent.warningMsg "Content moderation failed. Please ensure the content is appropriate.")
      ∈ handleActionError (remoteErrorMessage 422) :=
  (moderation_warning_iff_422 422 (by decide) (by decide)).1.mpr rfl

/-- Outcome of the enhancement POST as enhance_prompt observes it: a raised
transport error, or a response with a status code and an optional parsed JSON
body (none when the body is not valid JSON). -/
inductive HttpOutcome where
  | netError
  | response (status : Nat) (body : Option PyVal)

/-- enhance_prompt (src/services/prompt_enhancement.py lines 5-42): any
exception — transport failure, raise_for_status on a 4xx/5xx status, JSON
decode failure, or a non-dict payload — is caught and the original prompt
returned; otherwise `result.get("prompt variations", prompt)` is returned. -/
def enhance_prompt : HttpOutcome → String → PyVal
  | .netError, prompt => .vStr prompt
  | .response status body, prompt =>
    if 400 ≤ status ∧ status < 600 then .vStr prompt
    else
      match body with
      | none => .vStr prompt
      | some (.vDict kvs) =>
        match lookupKey kvs "prompt variations" with
        | some v => v
        | none => .vStr prompt
      | some _ => .vStr prompt

/-- C10 counterexample: a non-2xx response with status 300 and a JSON body
carrying "prompt variations" makes enhance_prompt return the enhanced value,
not the original prompt, because raise_for_status only raises on 4xx/5xx. -/
theorem enhance_prompt_redirect_counterexample :
    enhance_prompt (.response 300 (some (.vDict [("prompt variations", .vStr "enhanced")])))
        "orig" = .vStr "enhanced"
    ∧ (PyVal.vStr "enhanced") ≠ .vStr "orig" := by
  refine ⟨rfl, ?_⟩
  intro h
  simp only [PyVal.vStr.injEq] at h
  exact absurd h (by decide)

/-- C10 (amended): enhance_prompt is a total function that returns the
original prompt when the request raises, when the status is an HTTP error
(4xx/5xx — the range raise_for_status rejects, rather than every non-2xx),
when the body is not JSON, or when the parsed dict lacks "prompt variations";
when a non-error response carries a dict with that key, its value is
returned. -/
theorem enhance_prompt_fallback (prompt : String) (status : Nat) (body : Option PyVal)
    (kvs : List (String × PyVal)) :
    (enhance_prompt .netError prompt = .vStr prompt)
    ∧ (400 ≤ status → status < 600 →
        enhance_prompt (.response status body) prompt = .vStr prompt)
    ∧ (¬(400 ≤ status ∧ status < 600) →
        enhance_prompt (.response status none) prompt = .vStr prompt)
    ∧ (¬(400 ≤ status ∧ status < 600) → lookupKey kvs "prompt variations" = none →
        enhance_prompt (.response status (some (.vDict kvs))) prompt = .vStr prompt)
    ∧ (∀ v, ¬(400 ≤ status ∧ status < 600) → lookupKey kvs "prompt variations" = some v →
        enhance_prompt (.response status (some (.vDict kvs))) prompt = v) := by
  refine ⟨rfl, ?_, ?_, ?_, ?_⟩
  · intro h1 h2
    simp only [enhance_prompt]
    rw [if_pos ⟨h1, h2⟩]
  · intro h
    simp only [enhance_prompt]
    rw [if_neg h]
  · intro h hk
    simp only [enhance_prompt]
    rw [if_neg h]
    simp [hk]
  · intro v h hk
    simp only [enhance_prompt]
    rw [if_neg h]
    simp [hk]

/-- Witness for C10's amended theorem: a 200 response with the enhancement
key returns its value. -/
theorem enhance_prompt_fallback_witness :
    enhance_prompt (.response 200 (some (.vDict [("prompt variations", .vStr "E")]))) "orig"
      = .vStr "E" :=
  (enhance_prompt_fallback "orig" 200 none [("prompt variations", .vStr "E")]).2.2.2.2
    (.vStr "E") (by omega) rfl

end AdSnap
